import Mathlib

/-!
Verification development for the clear_on_drop crate (sgx port).

The crate root (src/lib.rs) declares a public module clear, private
modules clear_on_drop, clear_stack_on_return, fnoption and hide, and
re-exports the contents of clear_on_drop and clear_stack_on_return.
The bodies of those modules are not part of the given sources; the
definitions below that stand for them are modelled from the written
specification and carry a doc comment saying so.  The module structure
of lib.rs itself is embedded directly from the source.
-/

namespace ClearOnDropSpec

/-- A byte region: a contiguous span of bytes, each byte a natural
number (all byte values of interest are below 256; zero-ness is the
only property the claims need). -/
abbrev Region := List Nat

/-- Modelled from the spec: the Clearable erase operation of the (missing)
clear module over a raw byte span, "overwrites every byte of region with
the zero pattern ... for raw byte spans of arbitrary length", defined
recursively byte by byte. -/
def eraseBytes : Region → Region
  | [] => []
  | _ :: bs => 0 :: eraseBytes bs

/-- The three optimization-barrier backends of the (missing) hide module:
inline-instruction (nightly inline assembly), external-call (dummy C
function) and atomic-fence. -/
inductive Backend where
  | inlineAsm
  | externalCall
  | atomicFence
deriving DecidableEq, Repr

/-- Modelled from the spec: the atomic-fence backend "performs a sequence
of atomic load/store operations against the region", reading each byte
and storing the same value back. -/
def atomicTouch : Region → Region
  | [] => []
  | b :: bs => b :: atomicTouch bs

/-- Modelled from the spec: the hide barrier of the (missing) hide module.
A barrier call is "a side-effecting marker operation over a (pointer,
length) pair; it has no semantic effect on the data itself".  The
inline-instruction backend only reads the address; the external-call
backend calls a function "performing no semantically meaningful work
beyond touch this memory"; the atomic-fence backend loads and stores
each byte back unchanged. -/
def hide (be : Backend) (r : Region) : Region :=
  match be with
  | .inlineAsm => r
  | .externalCall => r
  | .atomicFence => atomicTouch r

/-- The three build-time cargo feature configurations that select a
backend: the nightly feature, the default (C compiler) build, and the
no_cc feature. -/
inductive BuildConfig where
  | nightly
  | cDefault
  | noCc
deriving DecidableEq, Repr

/-- Modelled from the spec: build-time feature selection chooses exactly
one barrier backend. -/
def selectBackend : BuildConfig → Backend
  | .nightly => .inlineAsm
  | .cDefault => .externalCall
  | .noCc => .atomicFence

/-- The way the protecting scope is left: normal return, early return,
or an unwind-style abnormal exit. -/
inductive ExitKind where
  | normal
  | early
  | unwind
deriving DecidableEq, Repr

/-- The observable outcome of running a protecting scope: how it was
left, the final contents of the protected region, and how many times the
drop-time erase ran. -/
structure ScopeResult where
  exit : ExitKind
  region : Region
  eraseCount : Nat
deriving DecidableEq, Repr

/-- Modelled from the spec: a ClearOnDrop wrapper protecting a region for
the duration of a scope (the missing clear_on_drop module).  The body may
read and mutate the region through the wrapper and decides how the scope
is left; on every exit path the drop glue runs exactly once, erasing the
region through the selected barrier backend.  The caller cannot suppress
or delay the erase. -/
def runScope (be : Backend) (body : Region → ExitKind × Region)
    (r : Region) : ScopeResult :=
  let res := body r
  { exit := res.1, region := hide be (eraseBytes res.2), eraseCount := 1 }

/-- Observable effects of the owning-form drop glue. -/
inductive Effect where
  | eraseRegion
  | deallocRegion
deriving DecidableEq, Repr

/-- Modelled from the spec: the drop glue of an owning ClearOnDrop
(holding a Box).  It erases the owned region through the barrier and
then releases the storage through the normal deallocation path, in that
order.  The result is the region contents as seen by the deallocation
path together with the emitted effect trace. -/
def dropOwning (be : Backend) (r : Region) : Region × List Effect :=
  (hide be (eraseBytes r), [Effect.eraseRegion, Effect.deallocRegion])

/-- Modelled from the spec: the build-time fixed size, in bytes, of the
stack window overwritten by clear_stack_on_return ("several
kilobytes"). -/
def STACK_BUFFER_SIZE : Nat := 8192

/-- The observable outcome of clear_stack_on_return: the value the
closure produced, how many times the closure ran, and the stack window
contents after the scrub. -/
structure ScrubResult (α : Type) where
  value : α
  callCount : Nat
  stackWindow : Region
deriving Repr

/-- The stack window right after the wrapped computation returns: the
residue the computation left behind, cut or padded to the fixed window
size. -/
def windowAfterRun (residue : Region) : Region :=
  (residue ++ List.replicate STACK_BUFFER_SIZE 0).take STACK_BUFFER_SIZE

/-- Modelled from the spec: clear_stack_on_return (the missing
clear_stack_on_return module).  It calls the closure exactly once, then
overwrites the fixed-size stack window with zeros through the barrier,
and returns the closure result.  The residue argument stands for
whatever bytes the computation spilled into the window. -/
def clear_stack_on_return {α : Type} (be : Backend) (f : Unit → α)
    (residue : Region) : ScrubResult α :=
  { value := f ()
  , callCount := 1
  , stackWindow := hide be (eraseBytes (windowAfterRun residue)) }

/-- The whole of process memory, as a byte list indexed by address. -/
abbrev Memory := List Nat

/-- Modelled from the spec: the bookkeeping fields of a borrowing
ClearOnDrop handle: the address and length of the protected region.  The
protected bytes themselves live in memory, not in the handle. -/
structure Handle where
  regionAddr : Nat
  regionLen : Nat
deriving DecidableEq, Repr

/-- Read a span of memory directly. -/
def readRegion (m : Memory) (addr len : Nat) : Region :=
  (m.drop addr).take len

/-- Write a span of bytes into memory directly at the given address. -/
def writeRegion (m : Memory) (addr : Nat) (bs : Region) : Memory :=
  m.take addr ++ bs ++ m.drop (addr + bs.length)

/-- Modelled from the spec: dereferencing an Active wrapper for reading
exposes the protected region exactly like direct access. -/
def derefRead (m : Memory) (w : Handle) : Region :=
  readRegion m w.regionAddr w.regionLen

/-- Modelled from the spec: dereferencing an Active wrapper for writing
updates the protected region exactly like a direct write. -/
def derefWrite (m : Memory) (w : Handle) (bs : Region) : Memory :=
  writeRegion m w.regionAddr bs

/-- Modelled from the spec: moving a ClearOnDrop handle.  While the
wrapper holds its mutable reference the data cannot be moved, so only
the bookkeeping fields are relocated: the handle value and the whole of
memory are unchanged. -/
def moveHandle (w : Handle) (m : Memory) : Handle × Memory :=
  (w, m)

mutual
/-- A clearable value: a single byte, or an aggregate (array) of
clearable elements, mirroring the recursive structure of the Clearable
capability ("arrays of byte-erasable elements are byte-erasable"). -/
inductive ClearVal where
  | byte (b : Nat)
  | arr (elems : ClearList)
/-- A list of clearable values (the elements of an aggregate). -/
inductive ClearList where
  | nil
  | cons (hd : ClearVal) (tl : ClearList)
end

mutual
/-- Modelled from the spec: Clearable erase on an arbitrary clearable
value, "defined recursively for aggregates": a byte is overwritten with
zero, an aggregate is erased element by element. -/
def eraseVal : ClearVal → ClearVal
  | .byte _ => .byte 0
  | .arr es => .arr (eraseList es)
/-- Elementwise erase over the elements of an aggregate. -/
def eraseList : ClearList → ClearList
  | .nil => .nil
  | .cons v vs => .cons (eraseVal v) (eraseList vs)
end

mutual
/-- Every byte of the value is zero. -/
def allZeroVal : ClearVal → Bool
  | .byte b => b == 0
  | .arr es => allZeroList es
/-- Every byte of every element is zero. -/
def allZeroList : ClearList → Bool
  | .nil => true
  | .cons v vs => allZeroVal v && allZeroList vs
end

mutual
/-- Number of bytes a clearable value occupies. -/
def byteLen : ClearVal → Nat
  | .byte _ => 1
  | .arr es => byteLenList es
/-- Number of bytes of an aggregate. -/
def byteLenList : ClearList → Nat
  | .nil => 0
  | .cons v vs => byteLen v + byteLenList vs
end

/-- The visibility of a module declared in lib.rs. -/
inductive Vis where
  | pub
  | priv
deriving DecidableEq, Repr

/-- A module declaration of lib.rs: its name and its visibility. -/
structure ModDecl where
  name : String
  vis : Vis
deriving DecidableEq, Repr

/-- The module declarations of src/lib.rs, in source order:
pub mod clear; mod clear_on_drop; mod clear_stack_on_return;
mod fnoption; mod hide. -/
def libModules : List ModDecl :=
  [ { name := "clear", vis := Vis.pub }
  , { name := "clear_on_drop", vis := Vis.priv }
  , { name := "clear_stack_on_return", vis := Vis.priv }
  , { name := "fnoption", vis := Vis.priv }
  , { name := "hide", vis := Vis.priv } ]

/-- The glob re-exports of src/lib.rs, in source order:
pub use clear_on_drop::*; pub use clear_stack_on_return::*. -/
def libReexports : List String :=
  ["clear_on_drop", "clear_stack_on_return"]

/-- A module name is publicly reachable from the crate root when it is
declared public or its contents are re-exported. -/
def publiclyReachable (n : String) : Bool :=
  (libModules.any fun d => d.name == n && d.vis == Vis.pub)
    || libReexports.any fun d => d == n

theorem atomicTouch_eq (r : Region) : atomicTouch r = r := by
  induction r with
  | nil => rfl
  | cons b bs ih => simp [atomicTouch, ih]

theorem hide_eq_id (be : Backend) (r : Region) : hide be r = r := by
  cases be <;> simp [hide, atomicTouch_eq]

theorem eraseBytes_eq_replicate (r : Region) :
    eraseBytes r = List.replicate r.length 0 := by
  induction r with
  | nil => rfl
  | cons b bs ih => simp [eraseBytes, ih, List.replicate_succ]

theorem eraseBytes_all_zero (r : Region) :
    (eraseBytes r).all (fun b => b == 0) = true := by
  induction r with
  | nil => rfl
  | cons b bs ih => simpa [eraseBytes] using ih

theorem eraseBytes_length (r : Region) :
    (eraseBytes r).length = r.length := by
  induction r with
  | nil => rfl
  | cons b bs ih => simp [eraseBytes, ih]

mutual
theorem allZeroVal_eraseVal : (v : ClearVal) → allZeroVal (eraseVal v) = true
  | .byte b => by simp [eraseVal, allZeroVal]
  | .arr es => by simpa [eraseVal, allZeroVal] using allZeroList_eraseList es
theorem allZeroList_eraseList : (vs : ClearList) → allZeroList (eraseList vs) = true
  | .nil => by simp [eraseList, allZeroList]
  | .cons v vs => by
      simp [eraseList, allZeroList, allZeroVal_eraseVal v, allZeroList_eraseList vs]
end

mutual
theorem byteLen_eraseVal : (v : ClearVal) → byteLen (eraseVal v) = byteLen v
  | .byte b => by simp [eraseVal, byteLen]
  | .arr es => by simp [eraseVal, byteLen, byteLenList_eraseList es]
theorem byteLenList_eraseList :
    (vs : ClearList) → byteLenList (eraseList vs) = byteLenList vs
  | .nil => by simp [eraseList, byteLenList]
  | .cons v vs => by
      simp [eraseList, byteLenList, byteLen_eraseVal v, byteLenList_eraseList vs]
end

theorem readRegion_writeRegion (m : Memory) (addr : Nat) (bs : Region)
    (h : addr ≤ m.length) :
    readRegion (writeRegion m addr bs) addr bs.length = bs := by
  have hlen : (m.take addr).length = addr := by
    simp [List.length_take, Nat.min_eq_left h]
  unfold readRegion writeRegion
  generalize hl1 : m.take addr = l1 at *
  rw [List.append_assoc, ← hlen, List.drop_left, List.take_left]

theorem windowAfterRun_length (residue : Region) :
    (windowAfterRun residue).length = STACK_BUFFER_SIZE := by
  simp [windowAfterRun, List.length_take, List.length_append]

/-- C1: for every byte region wrapped by a ClearOnDrop scope, for any of
the three barrier backends, when the wrapper leaves its protecting scope
every byte of the region reads as zero. -/
theorem c1_scope_exit_all_zero (be : Backend)
    (body : Region → ExitKind × Region) (r : Region) :
    ((runScope be body r).region).all (fun b => b == 0) = true := by
  simp [runScope, hide_eq_id, eraseBytes_all_zero]

/-- C2: erasure of a protected region happens exactly once, at the end
of the protecting scope, and on every exit path from that scope: the
erase count is one and the region is all zero for every body, whatever
exit kind the body chooses, and each of the three exit kinds is
realizable; the caller cannot suppress or delay the erase. -/
theorem c2_erase_once_every_exit (be : Backend)
    (body : Region → ExitKind × Region) (r : Region) (k : ExitKind) :
    (runScope be body r).eraseCount = 1
      ∧ ((runScope be body r).region).all (fun b => b == 0) = true
      ∧ (runScope be (fun s => (k, s)) r).exit = k := by
  refine ⟨rfl, ?_, rfl⟩
  simp [runScope, hide_eq_id, eraseBytes_all_zero]

/-- C3: for every owning ClearOnDrop, on scope exit the erase of the
region strictly precedes the deallocation of its storage in the effect
trace, and the region as seen by the deallocation path is already all
zero. -/
theorem c3_erase_before_dealloc (be : Backend) (r : Region) :
    ((dropOwning be r).2.indexOf Effect.eraseRegion
        < (dropOwning be r).2.indexOf Effect.deallocRegion)
      ∧ ((dropOwning be r).1).all (fun b => b == 0) = true := by
  constructor
  · have h2 : (dropOwning be r).2 = [Effect.eraseRegion, Effect.deallocRegion] := rfl
    rw [h2]
    decide
  · simp [dropOwning, hide_eq_id, eraseBytes_all_zero]

/-- C4: clear_stack_on_return executes the computation to completion
exactly once, then overwrites a stack window of the fixed build-time
size with the zero pattern, the window being independent of the residue
the computation left on the stack, and returns the computation
result. -/
theorem c4_run_and_scrub {α : Type} (be : Backend) (f : Unit → α)
    (residue : Region) :
    (clear_stack_on_return be f residue).value = f ()
      ∧ (clear_stack_on_return be f residue).callCount = 1
      ∧ (clear_stack_on_return be f residue).stackWindow
          = List.replicate STACK_BUFFER_SIZE 0 := by
  refine ⟨rfl, rfl, ?_⟩
  simp [clear_stack_on_return, hide_eq_id, eraseBytes_eq_replicate,
    windowAfterRun_length]

/-- C5: the three barrier backends are semantically equivalent to the
caller, and for every build configuration the build-time feature
selection chooses exactly one backend. -/
theorem c5_backends_equivalent (b1 b2 : Backend) (r : Region)
    (c : BuildConfig) :
    hide b1 r = hide b2 r ∧ ∃! b : Backend, selectBackend c = b :=
  ⟨by rw [hide_eq_id, hide_eq_id],
    ⟨selectBackend c, rfl, fun y hy => hy.symm⟩⟩

/-- C6: moving a ClearOnDrop handle without dropping it relocates only
the wrapper bookkeeping fields: the handle fields are preserved and the
whole of memory, in particular the protected region, is byte-for-byte
unchanged, so no stale uncleared copy of the protected bytes is left
behind. -/
theorem c6_move_no_stale_copy (w : Handle) (m : Memory) :
    (moveHandle w m).2 = m
      ∧ (moveHandle w m).1 = w
      ∧ readRegion (moveHandle w m).2 w.regionAddr w.regionLen
          = readRegion m w.regionAddr w.regionLen :=
  ⟨rfl, rfl, rfl⟩

/-- C7: Clearable erase is total over aggregates of byte-erasable
elements of arbitrary structure and over raw byte spans of arbitrary
length; it overwrites every byte of the region with the zero pattern and
preserves the byte length of the region. -/
theorem c7_erase_total_all_zero (v : ClearVal) (r : Region) :
    allZeroVal (eraseVal v) = true
      ∧ byteLen (eraseVal v) = byteLen v
      ∧ (eraseBytes r).all (fun b => b == 0) = true
      ∧ (eraseBytes r).length = r.length :=
  ⟨allZeroVal_eraseVal v, byteLen_eraseVal v, eraseBytes_all_zero r,
    eraseBytes_length r⟩

/-- C8: a barrier call over a region has no semantic effect on the data:
every byte of the region reads the same after the barrier call as
before it, for each backend. -/
theorem c8_barrier_frame (be : Backend) (r : Region) : hide be r = r :=
  hide_eq_id be r

/-- C9: while the wrapper is Active, dereferencing it for reads and
writes is observationally identical to direct access to the underlying
region: a read through the wrapper returns the region current value,
and a write through the wrapper followed by a direct read of the region
yields exactly the written bytes. -/
theorem c9_deref_transparent (m : Memory) (w : Handle) (bs : Region)
    (h : w.regionAddr ≤ m.length) :
    derefRead m w = readRegion m w.regionAddr w.regionLen
      ∧ derefWrite m w bs = writeRegion m w.regionAddr bs
      ∧ readRegion (derefWrite m w bs) w.regionAddr bs.length = bs :=
  ⟨rfl, rfl, readRegion_writeRegion m w.regionAddr bs h⟩

/-- Witness for C9 at a concrete memory, handle and payload. -/
theorem c9_deref_transparent_witness :
    derefRead [7, 8, 9, 10] ⟨1, 2⟩ = readRegion [7, 8, 9, 10] 1 2
      ∧ derefWrite [7, 8, 9, 10] ⟨1, 2⟩ [5, 6]
          = writeRegion [7, 8, 9, 10] 1 [5, 6]
      ∧ readRegion (derefWrite [7, 8, 9, 10] ⟨1, 2⟩ [5, 6]) 1 [5, 6].length
          = [5, 6] :=
  c9_deref_transparent [7, 8, 9, 10] ⟨1, 2⟩ [5, 6] (by decide)

/-- C10: the barrier primitive is not directly reachable through the
crate public interface: in src/lib.rs the hide and fnoption modules are
private and not re-exported, while the clear module is public and the
contents of clear_on_drop and clear_stack_on_return are re-exported. -/
theorem c10_hide_not_public :
    publiclyReachable "hide" = false
      ∧ publiclyReachable "fnoption" = false
      ∧ publiclyReachable "clear" = true
      ∧ publiclyReachable "clear_on_drop" = true
      ∧ publiclyReachable "clear_stack_on_return" = true := by
  decide

end ClearOnDropSpec
